import Mathlib

/-!
Verification development for the WGDashboard API client (`app/wgd_api.py`).

The Python client is shallowly embedded: each relevant method of `WGDAPI`
becomes a pure Lean function over explicit inputs (raw peer records, response
oracles, client state).  Python values appearing in upstream JSON records are
modelled by `Py.Val`; Python `float` literals that occur in the data paths are
exact decimal numbers, modelled by `Py.Dec` (mantissa over a power of ten),
which is exact for every value the claims exercise.
-/

set_option autoImplicit false

namespace Py

/-- Exact decimal number `mant / 10 ^ pow`, the model of the Python floats
that arise from parsing decimal strings and from the scalings in
`WGDAPI._to_unix` / `WGDAPI._num` (all of which are exact decimal
operations on the inputs the code receives). -/
structure Dec where
  mant : Int
  pow : Nat
deriving DecidableEq, Repr

namespace Dec

/-- Embed an integer as a decimal. -/
def ofInt (n : Int) : Dec := ⟨n, 0⟩

/-- Negation. -/
def neg (d : Dec) : Dec := ⟨-d.mant, d.pow⟩

/-- Multiply by an integer. -/
def mulInt (d : Dec) (n : Int) : Dec := ⟨d.mant * n, d.pow⟩

/-- Divide by `10 ^ k` (exact). -/
def divPow10 (d : Dec) (k : Nat) : Dec := ⟨d.mant, d.pow + k⟩

/-- Comparison `d > n` against an integer threshold. -/
def gtInt (d : Dec) (n : Int) : Bool := decide (d.mant > n * 10 ^ d.pow)

/-- Python `int(x)`: truncation toward zero. -/
def trunc (d : Dec) : Int := d.mant.tdiv (10 ^ d.pow : Nat)

/-- Value of a decimal as a rational-free proposition helper: `d` denotes
the integer `n` exactly. -/
def isInt (d : Dec) (n : Int) : Prop := d.mant = n * 10 ^ d.pow

end Dec

/-- Model of the Python values found in upstream JSON dictionaries:
`None`, `int`, `float` (exact decimal), and `str`. -/
inductive Val where
  | vnone
  | vint (n : Int)
  | vfloat (d : Dec)
  | vstr (s : String)
deriving DecidableEq, Repr

namespace Val

/-- Python truthiness of a value (`bool(v)`). -/
def truthy : Val → Bool
  | vnone => false
  | vint n => n ≠ 0
  | vfloat d => d.mant ≠ 0
  | vstr s => s ≠ ""

/-- Python `x or y` on values: the first operand if truthy, else the second. -/
def pyOr (a b : Val) : Val := if a.truthy then a else b

/-- Python `str(v)`.  For `float` the decimal text is approximated by the
raw mantissa/power pair; no claim depends on the rendering of floats. -/
def pyStr : Val → String
  | vnone => "None"
  | vint n => toString n
  | vfloat d => toString d.mant ++ "e-" ++ toString d.pow
  | vstr s => s

end Val

/-- Characters treated as whitespace by `str.strip` / `str.split`. -/
def isWs (c : Char) : Bool := c = ' ' || c = '\t' || c = '\n' || c = '\r'

/-- Numeric value of a list of decimal digits. -/
def digitsVal (cs : List Char) : Nat :=
  cs.foldl (fun acc c => acc * 10 + (c.toNat - '0'.toNat)) 0

/-- Parse a fixed all-digit field. -/
def parseNatAll (cs : List Char) : Option Nat :=
  if cs ≠ [] && cs.all Char.isDigit then some (digitsVal cs) else none

/-- Parse an unsigned decimal literal (digits, optional point, digits),
the model of Python `float()` on the plain decimal strings this code
receives.  Scientific notation and the named floats are outside the
modelled grammar. -/
def parseUDec (cs : List Char) : Option Dec :=
  let ip := cs.takeWhile Char.isDigit
  let rest := cs.dropWhile Char.isDigit
  match rest with
  | [] => if ip = [] then none else some ⟨(digitsVal ip : Int), 0⟩
  | '.' :: frac =>
      if frac.all Char.isDigit && (ip ≠ [] || frac ≠ []) then
        some ⟨(digitsVal (ip ++ frac) : Int), frac.length⟩
      else none
  | _ => none

/-- Parse a signed decimal literal. -/
def parseDec (cs : List Char) : Option Dec :=
  match cs with
  | '+' :: rest => parseUDec rest
  | '-' :: rest => (parseUDec rest).map Dec.neg
  | _ => parseUDec cs

/-- Python `str.strip()`. -/
def strip (cs : List Char) : List Char :=
  ((cs.dropWhile isWs).reverse.dropWhile isWs).reverse

/-- Helper for `pySplit`: accumulates the current token (reversed). -/
def pySplitAux : List Char → List Char → List (List Char)
  | [], cur => if cur = [] then [] else [cur.reverse]
  | c :: rest, cur =>
      if isWs c then
        if cur = [] then pySplitAux rest []
        else cur.reverse :: pySplitAux rest []
      else pySplitAux rest (c :: cur)

/-- Python `str.split()` (split on whitespace runs, dropping empties). -/
def pySplit (cs : List Char) : List (List Char) :=
  pySplitAux cs []

/-- Python `str.upper()` restricted to ASCII (unit tokens are ASCII). -/
def upperAscii (cs : List Char) : List Char :=
  cs.map fun c => if 'a' ≤ c && c ≤ 'z' then Char.ofNat (c.toNat - 32) else c

end Py

namespace WGDAPI

open Py

/-- Raw upstream peer record: the model of the Python dict handed to the
normalizer (association list, first binding wins, as dict keys are unique). -/
def RawPeer := List (String × Py.Val)
deriving DecidableEq

/-- Python `peer.get(k)`: the stored value, or `None` when absent. -/
def pget (p : RawPeer) (k : String) : Py.Val :=
  match (List.find? (fun kv => kv.1 = k) p) with
  | some kv => kv.2
  | none => Py.Val.vnone

/-- Python `k in peer`. -/
def phas (p : RawPeer) (k : String) : Bool :=
  (List.find? (fun kv => kv.1 = k) p).isSome

/-- Unit multiplier order from `WGDAPI._num`: the dict lookup
`{"B":0,"KB":1,"MB":2,"GB":3,"TB":4}.get(unit, 0)`. -/
def unitOrder (cs : List Char) : Nat :=
  if cs = "B".data then 0
  else if cs = "KB".data then 1
  else if cs = "MB".data then 2
  else if cs = "GB".data then 3
  else if cs = "TB".data then 4
  else 0

/-- Model of `WGDAPI._num`: coercion of an arbitrary upstream value to an
integer, including unit-suffixed strings such as `0.12 GB`.  Python float
arithmetic is modelled by exact decimals, which agrees with the source for
every decimal string and `int(val * mult)` truncation the claims touch. -/
def num : Py.Val → Int
  | Py.Val.vnone => 0
  | Py.Val.vint n => n
  | Py.Val.vfloat d => d.trunc
  | Py.Val.vstr s =>
      match pySplit (strip s.data) with
      | [] => 0
      | [p0] =>
          match parseDec p0 with
          | some d => d.trunc
          | none => 0
      | p0 :: p1 :: _ =>
          match parseDec p0 with
          | none => 0
          | some d => (d.mulInt (1024 ^ unitOrder (upperAscii p1))).trunc

/-- Days from the civil epoch 1970-01-01 (standard civil-calendar count,
the arithmetic behind `datetime.timestamp()` for UTC datetimes). -/
def daysFromCivil (y : Int) (mo dd : Nat) : Int :=
  let yAdj : Int := if mo ≤ 2 then y - 1 else y
  let era : Int := Int.fdiv yAdj 400
  let yoe : Int := yAdj - era * 400
  let mp : Nat := if mo > 2 then mo - 3 else mo + 9
  let doy : Int := ((153 * mp + 2) / 5 + dd - 1 : Nat)
  let doe : Int := yoe * 365 + Int.fdiv yoe 4 - Int.fdiv yoe 100 + doy
  era * 146097 + doe - 719468

/-- Validation plus epoch conversion for a parsed ISO date-time.
Day-of-month is validated against 31 uniformly (a mild widening of
`fromisoformat`, which checks month length; every claim uses valid dates). -/
def isoDateTime (y mo dd hh mi ss : Nat) (off : Int) : Option Int :=
  if 1 ≤ mo && mo ≤ 12 && 1 ≤ dd && dd ≤ 31 && hh ≤ 23 && mi ≤ 59 && ss ≤ 59 then
    some (daysFromCivil y mo dd * 86400 + hh * 3600 + mi * 60 + ss - off)
  else none

/-- Parse a trailing UTC offset `+HH:MM` / `-HH:MM` (empty means naive,
which `_to_unix` interprets as UTC). -/
def isoOff : List Char → Option Int
  | [] => some 0
  | sign :: o1 :: o2 :: ':' :: o3 :: o4 :: [] => do
      let oh ← parseNatAll [o1, o2]
      let om ← parseNatAll [o3, o4]
      if oh ≤ 23 && om ≤ 59 then
        if sign = '+' then some ((oh * 3600 + om * 60 : Nat) : Int)
        else if sign = '-' then some (-((oh * 3600 + om * 60 : Nat) : Int))
        else none
      else none
  | _ => none

/-- Parse the time-of-day part of an ISO string (after the date), giving
`(hour, minute, second, offset)`. -/
def isoTail : List Char → Option (Nat × Nat × Nat × Int)
  | [] => some (0, 0, 0, 0)
  | sep :: h1 :: h2 :: ':' :: m1 :: m2 :: ':' :: s1 :: s2 :: rest =>
      if sep = 'T' || sep = ' ' then do
        let hh ← parseNatAll [h1, h2]
        let mi ← parseNatAll [m1, m2]
        let ss ← parseNatAll [s1, s2]
        let off ← isoOff rest
        some (hh, mi, ss, off)
      else none
  | _ => none

/-- Model of `datetime.fromisoformat` followed by `.timestamp()` as used in
`WGDAPI._to_unix`, restricted to the grammar
`YYYY-MM-DD[{T,space}HH:MM:SS[+HH:MM]]` (no fractional seconds). -/
def isoParse : List Char → Option Int
  | y1 :: y2 :: y3 :: y4 :: '-' :: a1 :: a2 :: '-' :: b1 :: b2 :: rest => do
      let y ← parseNatAll [y1, y2, y3, y4]
      let mo ← parseNatAll [a1, a2]
      let dd ← parseNatAll [b1, b2]
      let t ← isoTail rest
      isoDateTime y mo dd t.1 t.2.1 t.2.2.1 t.2.2.2
  | _ => none

/-- Python `s.replace("Z", "+00:00")`. -/
def replaceZ : List Char → List Char
  | [] => []
  | 'Z' :: rest => '+' :: '0' :: '0' :: ':' :: '0' :: '0' :: replaceZ rest
  | c :: rest => c :: replaceZ rest

/-- Numeric branch of `WGDAPI._to_unix` on a Python int: magnitude-scaled
to seconds (`>1e12` read as nanoseconds, `>1e10` as milliseconds), then
truncated.  The float round-trip of huge ints deviates by well under a
second and is modelled as exact. -/
def toUnixInt (n : Int) : Int :=
  if n > 10 ^ 12 then n.tdiv (10 ^ 9)
  else if n > 10 ^ 10 then n.tdiv (10 ^ 3)
  else n

/-- Numeric branch of `WGDAPI._to_unix` on a Python float. -/
def toUnixDec (d : Py.Dec) : Int :=
  if d.gtInt (10 ^ 12) then (d.divPow10 9).trunc
  else if d.gtInt (10 ^ 10) then (d.divPow10 3).trunc
  else d.trunc

/-- Guard of the relative branch of `_to_unix`:
`s.endswith(("s","m","h","d")) and len(s) > 1`. -/
def relGuard (cs : List Char) : Bool :=
  (match cs.getLast? with
   | some c => c = 's' || c = 'm' || c = 'h' || c = 'd'
   | none => false) && cs.length > 1

/-- Model of `WGDAPI._to_unix`: normalization of an upstream time value to
unix seconds.  `now` stands for `int(time.time())` at the moment of the
call. -/
def to_unix (now : Int) : Py.Val → Option Int
  | Py.Val.vnone => none
  | Py.Val.vint n => some (toUnixInt n)
  | Py.Val.vfloat d => some (toUnixDec d)
  | Py.Val.vstr s =>
      let cs := strip s.data
      if cs = [] then none
      else if relGuard cs then
        match parseDec cs.dropLast with
        | none => none
        | some d =>
            match cs.getLast? with
            | some 's' => some (now - d.trunc)
            | some 'm' => some (now - (d.mulInt 60).trunc)
            | some 'h' => some (now - (d.mulInt 3600).trunc)
            | some 'd' => some (now - (d.mulInt 86400).trunc)
            | _ => none
      else isoParse (replaceZ cs)

end WGDAPI

namespace WGDAPI

/-- Model of `WGDAPI._peer_id`: first of `id`, `peer_id`, `Id` that is
present and not `None`, rendered with `str`. -/
def peer_id (p : RawPeer) : Option String :=
  match ["id", "peer_id", "Id"].find? (fun k => phas p k && pget p k != Py.Val.vnone) with
  | some k => some (pget p k).pyStr
  | none => none

/-- Model of `WGDAPI._peer_public_key`: first of `publicKey`, `public_key`,
`PublicKey` that is present and truthy, rendered with `str`. -/
def peer_public_key (p : RawPeer) : Option String :=
  match ["publicKey", "public_key", "PublicKey"].find? (fun k => phas p k && (pget p k).truthy) with
  | some k => some (pget p k).pyStr
  | none => none

/-- Model of `WGDAPI._peer_allowed_ip`: the Python `or`-chain
`peer.get("allowed_ip") or peer.get("AllowedIP") or peer.get("AllowedIp")`. -/
def peer_allowed_ip (p : RawPeer) : Py.Val :=
  Py.Val.pyOr (pget p "allowed_ip") (Py.Val.pyOr (pget p "AllowedIP") (pget p "AllowedIp"))

/-- Key list walked by `WGDAPI._peer_handshake_ts`. -/
def hsKeys : List String :=
  ["LatestHandshake", "latestHandshake", "latest_handshake",
   "LastHandshake", "lastHandshake", "Handshake", "handshake"]

/-- Helper: first key whose value `_to_unix` normalizes to a timestamp. -/
def firstToUnix (now : Int) (p : RawPeer) : List String → Option Int
  | [] => none
  | k :: ks =>
      match to_unix now (pget p k) with
      | some ts => some ts
      | none => firstToUnix now p ks

/-- Model of `WGDAPI._peer_handshake_ts`. -/
def peer_handshake_ts (now : Int) (p : RawPeer) : Option Int :=
  firstToUnix now p hsKeys

/-- Model of `WGDAPI._peer_last_hs`: the first of four handshake keys that
is present and not `None` is normalized (a failed normalization returns
`None` without falling through); with no such key the function falls back
to `_peer_handshake_ts`. -/
def peer_last_hs (now : Int) (p : RawPeer) : Option Int :=
  match ["LatestHandshake", "latestHandshake", "latest_handshake", "LastHandshake"].find?
      (fun k => phas p k && pget p k != Py.Val.vnone) with
  | some k => to_unix now (pget p k)
  | none => peer_handshake_ts now p

/-- Model of `WGDAPI._peer_rx`: first present key wins, even with a `None`
value (`_num(None) = 0`). -/
def peer_rx (p : RawPeer) : Int :=
  match ["transferRx", "TransferRx", "rx", "Rx", "receive", "ReceiveBytes"].find? (phas p) with
  | some k => num (pget p k)
  | none => 0

/-- Model of `WGDAPI._peer_tx`. -/
def peer_tx (p : RawPeer) : Int :=
  match ["transferTx", "TransferTx", "tx", "Tx", "sent", "TransmitBytes"].find? (phas p) with
  | some k => num (pget p k)
  | none => 0

/-- Candidate rx/tx key pairs of `WGDAPI._peer_transfer_pair`. -/
def transferPairs : List (String × String) :=
  [("rx", "tx"), ("Rx", "Tx"), ("receive", "sent"), ("download", "upload"),
   ("transferRx", "transferTx"), ("TransferRx", "TransferTx"),
   ("ReceiveBytes", "TransmitBytes")]

/-- Model of `WGDAPI._peer_transfer_pair`: the first pair with either side
present and not `None` is coerced with `_num`. -/
def peer_transfer_pair (p : RawPeer) : Int × Int :=
  match transferPairs.find?
      (fun rt => pget p rt.1 != Py.Val.vnone || pget p rt.2 != Py.Val.vnone) with
  | some rt => (num (pget p rt.1), num (pget p rt.2))
  | none => (0, 0)

/-- Model of `WGDAPI._peer_name`: raw `name`/`Name` value if truthy, else
the last 8 characters of the public key, else `(no-name)`.  The raw value
is returned as-is (it need not be a string). -/
def peer_name (p : RawPeer) : Py.Val :=
  let pk := (peer_public_key p).getD ""
  Py.Val.pyOr (pget p "name") (Py.Val.pyOr (pget p "Name")
    (Py.Val.vstr (if pk ≠ "" then pk.takeRight 8 else "(no-name)")))

/-- Python `or` on strings (used where both operands are already `str`). -/
def strOr (a b : String) : String := if a ≠ "" then a else b

/-- Normalized peer record produced by `WGDAPI._norm_peer`: the ten-field
dictionary becomes a structure with one field per dictionary key. -/
structure NormPeer where
  config : String
  id : String
  public_key : String
  name : Py.Val
  allowed_ip : Py.Val
  rx : Int
  tx : Int
  last_handshake : Option Int
  active : Bool
  raw : RawPeer
deriving DecidableEq

/-- Model of `WGDAPI._norm_peer`.  `window` is `self.active_window_sec`,
`now` is `time.time()` at the call (integer-second model of the float
clock). -/
def norm_peer (window now : Int) (cfg : String) (p : RawPeer) : NormPeer :=
  let pid := strOr ((peer_id p).getD "") (strOr ((peer_public_key p).getD "") "")
  let pk := (peer_public_key p).getD ""
  let hs := peer_last_hs now p
  { config := cfg
    id := pid
    public_key := pk
    name := peer_name p
    allowed_ip := Py.Val.pyOr (peer_allowed_ip p) (Py.Val.vstr "")
    rx := peer_rx p
    tx := peer_tx p
    last_handshake := hs
    active := match hs with
      | some h => decide (now - h ≤ window)
      | none => false
    raw := p }

end WGDAPI

namespace WGDAPI

/-- Pack an IPv4 dotted quad into its 32-bit integer value. -/
def ipv4 (a b c d : Nat) : Nat := ((a * 256 + b) * 256 + c) * 256 + d

/-- Network base of an interface address under a prefix length, the model
of `ipaddress.ip_interface(addr).network` (host bits cleared). -/
def netBase (addr plen : Nat) : Nat := addr - addr % 2 ^ (32 - plen)

/-- Model of `network.hosts()`: all usable host addresses in ascending
order.  As in `ipaddress`, a /31 yields both addresses and a /32 yields
the single address; otherwise network and broadcast are excluded. -/
def hostsList (base plen : Nat) : List Nat :=
  if plen = 32 then [base]
  else if plen = 31 then [base, base + 1]
  else (List.range (2 ^ (32 - plen) - 2)).map (fun i => base + 1 + i)

/-- Subnet-walk of `_suggest_next_allowed_ip`: first host whose last octet
is neither 0 nor 1 and which is not already used. -/
def walkFind (base plen : Nat) (used : List Nat) : Option Nat :=
  (hostsList base plen).find?
    (fun ip => ip % 256 != 0 && ip % 256 != 1 && !used.contains ip)

/-- Fallback path of `_suggest_next_allowed_ip`: bootstrap `10.66.66.2`
with no peers, else `max(used) + 1` bumped once past a last octet of 0
or 1. -/
def allocFallback (used : List Nat) : Nat :=
  match used.max? with
  | none => ipv4 10 66 66 2
  | some mx =>
      let current := mx + 1
      if current % 256 = 0 || current % 256 = 1 then current + 1 else current

/-- Model of `WGDAPI._suggest_next_allowed_ip`.  `iface` is the parsed
`Address` of the target configuration (`none` when the subnet is
unresolvable); `used` is the set of 32-bit addresses parsed from the
peers' `allowed_ip` fields.  The returned address is formatted as
`<ip>/32` by the source; the model returns the 32-bit value. -/
def suggest_next_allowed_ip (iface : Option (Nat × Nat)) (used : List Nat) : Nat :=
  match iface with
  | some ap =>
      match walkFind (netBase ap.1 ap.2) ap.2 used with
      | some ip => ip
      | none => allocFallback used
  | none => allocFallback used

/-- Parsed-JSON outcome of a 2xx response body in `_arequest`
(`resp.json()` succeeds, fails, or carries an explicit failure flag). -/
inductive JOut where
  | jok (s : String)
  | jbad
  | jfalse (msg : String)
deriving DecidableEq

/-- One upstream event per attempt of `_arequest`: a status-code response,
a connect/read timeout, or another `httpx.HTTPError`. -/
inductive HEvent where
  | resp (code : Nat) (body : JOut)
  | timeout
  | herr
deriving DecidableEq

/-- Observable trace of one `_arequest` call: outcome, total attempts,
and the sleeps performed (milliseconds; the source uses float seconds). -/
structure ReqTrace where
  result : Except String String
  attempts : Nat
  sleeps : List Nat

/-- Retry loop of `WGDAPI._arequest` (default `expect_json=True`,
`stream=False`), driven by a script of upstream events consumed one per
attempt.  An exhausted script is marked `no-response` (unreachable for
scripts at least `retries + 1` long). -/
def arequestGo (retries : Nat) : Nat → Nat → List Nat → List HEvent → ReqTrace
  | attempt, _, sleeps, [] => ⟨Except.error "no-response", attempt, sleeps⟩
  | attempt, backoff, sleeps, e :: rest =>
      let att := attempt + 1
      match e with
      | HEvent.resp code body =>
          if code ≥ 400 then
            if att ≤ retries && (code = 502 || code = 503 || code = 504) then
              arequestGo retries att (min (backoff * 2) 2000) (sleeps ++ [backoff]) rest
            else ⟨Except.error ("HTTP " ++ toString code), att, sleeps⟩
          else
            match body with
            | JOut.jbad => ⟨Except.error "invalid JSON", att, sleeps⟩
            | JOut.jfalse m => ⟨Except.error ("API error: " ++ m), att, sleeps⟩
            | JOut.jok s => ⟨Except.ok s, att, sleeps⟩
      | HEvent.timeout =>
          if att ≤ retries then
            arequestGo retries att (min (backoff * 2) 2000) (sleeps ++ [backoff]) rest
          else ⟨Except.error "timeout", att, sleeps⟩
      | HEvent.herr =>
          if att ≤ retries then
            arequestGo retries att (min (backoff * 2) 2000) (sleeps ++ [backoff]) rest
          else ⟨Except.error "HTTPError", att, sleeps⟩

/-- Model of `WGDAPI._arequest`: attempt counter 0, backoff 250 ms. -/
def arequest (retries : Nat) (script : List HEvent) : ReqTrace :=
  arequestGo retries 0 250 [] script

/-- Default `_MAX_RETRIES` of the client. -/
def MAX_RETRIES : Nat := 2

end WGDAPI

namespace WGDAPI

/-- ASCII-restricted `str.lower()` (error messages are matched
case-insensitively in `ensure_config`). -/
def lowerAscii (cs : List Char) : List Char :=
  cs.map fun c => if 'A' ≤ c && c ≤ 'Z' then Char.ofNat (c.toNat + 32) else c

/-- Python `haystack.startswith(pat)` on character lists. -/
def startsWithL : List Char → List Char → Bool
  | _, [] => true
  | [], _ :: _ => false
  | c :: cs, p :: ps => c = p && startsWithL cs ps

/-- Python `pat in haystack` (substring containment) on character lists. -/
def containsL : List Char → List Char → Bool
  | [], pat => pat.isEmpty
  | c :: rest, pat => startsWithL (c :: rest) pat || containsL rest pat

/-- Client-plus-upstream state for the configuration-management methods.
`upstream` is the set of configuration names the dashboard holds;
`cache` is a still-fresh `configs` cache entry; `createCalls` counts
`POST /api/addWireguardConfiguration` requests; `listErr` makes the list
endpoint fail; `createErr` makes the create endpoint fail with an error
unrelated to existence. -/
structure Sys where
  upstream : List String
  cache : Option (List String)
  createCalls : Nat
  listErr : Bool
  createErr : Option String
deriving DecidableEq

/-- Model of `WGDAPI.get_configs` (within one cache TTL window): a fresh
cache entry short-circuits; otherwise the upstream list is fetched and
cached (or the listing error is raised). -/
def get_configs (s : Sys) : Except Unit (List String) × Sys :=
  match s.cache with
  | some v => (Except.ok v, s)
  | none =>
      if s.listErr then (Except.error (), s)
      else (Except.ok s.upstream, { s with cache := some s.upstream })

/-- Model of `WGDAPI.add_config`: one upstream create call; an existing
name yields the upstream `already exist` failure envelope; only a
successful response invalidates the configs cache. -/
def add_config (name : String) (s : Sys) : Except String Unit × Sys :=
  let s1 : Sys := { s with createCalls := s.createCalls + 1 }
  match s.createErr with
  | some m => (Except.error m, s1)
  | none =>
      if name ∈ s1.upstream then (Except.error "API error: config already exist", s1)
      else (Except.ok (), { s1 with upstream := s1.upstream ++ [name], cache := none })

/-- Model of `WGDAPI.ensure_config`: list (errors swallowed, treated as an
empty set), no-op when present, else create, accepting an
`already`-mentioning failure as success. -/
def ensure_config (name : String) (s : Sys) : Except String Unit × Sys :=
  let r := get_configs s
  let existing : List String := match r.1 with
    | Except.ok cfgs => cfgs
    | Except.error _ => []
  if name ∈ existing then (Except.ok (), r.2)
  else
    match add_config name r.2 with
    | (Except.ok _, s2) => (Except.ok (), s2)
    | (Except.error m, s2) =>
        if containsL (lowerAscii m.data) "already".data then (Except.ok (), s2)
        else (Except.error m, s2)

/-- Outcome of one endpoint variant inside `WGDAPI.get_peers`: any raised
exception, an unusable response, or one of the recognized shapes.
`ddictEmpty` is a dict `data` whose `Peers`/`peers` chain is falsy or
absent (the code then picks the empty list and stops probing);
`ddictNonList` is a truthy non-list there (the loop continues). -/
inductive PeersAttempt where
  | exc
  | nonDict
  | dlist (ps : List RawPeer)
  | ddictList (ps : List RawPeer)
  | ddictEmpty
  | ddictNonList
deriving DecidableEq

/-- Peers extracted by the variant attempt, when the loop breaks on it. -/
def attemptBreak : PeersAttempt → Option (List RawPeer)
  | PeersAttempt.dlist ps => some ps
  | PeersAttempt.ddictList ps => some ps
  | PeersAttempt.ddictEmpty => some []
  | _ => none

/-- First attempt on which the probing loop breaks. -/
def firstBreak : List PeersAttempt → Option (List RawPeer)
  | [] => none
  | a :: rest =>
      match attemptBreak a with
      | some ps => some ps
      | none => firstBreak rest

/-- Model of `WGDAPI.get_peers` (non-`force`, within one TTL window):
returns the freshly cached value if present, else probes the endpoint
variants in order, defaults to the empty list, and caches the result. -/
def get_peers (cached : Option (List RawPeer)) (attempts : List PeersAttempt) :
    List RawPeer × Option (List RawPeer) :=
  match cached with
  | some v => (v, some v)
  | none =>
      let peers := (firstBreak attempts).getD []
      (peers, some peers)

end WGDAPI

namespace WGDAPI

/-- Body of a 200 response as `_try_download` sees it: a JSON envelope
(with the `data.file` / `data.fileName` chain already resolved to its
first truthy string, or absent), a body that looks like JSON but fails to
parse, or a plain binary/text body with an optional
`Content-Disposition` header. -/
inductive DlBody where
  | bjson (file fileName : Option String)
  | bjsonbad (raw : String)
  | bplain (cd : Option String) (content : String)
deriving DecidableEq

/-- Deterministic response of one download request: a raised
`httpx.HTTPError`, or a status code with a body. -/
inductive DlResp where
  | exc
  | resp (status : Nat) (body : DlBody)
deriving DecidableEq

/-- Outcome of `_try_download`: a `(filename, content)` pair, `None`
(skip to the next variant), or the raised `WGDError` for a JSON envelope
without a marker-bearing file. -/
inductive TryResult where
  | success (filename content : String)
  | skip
  | fail
deriving DecidableEq

/-- Python `fn if fn.endswith(".conf") else fn + ".conf"` shape used for
both download branches. -/
def ensureConfExt (fn : String) : String :=
  if startsWithL fn.data.reverse ".conf".data.reverse then fn
  else fn ++ ".conf"

/-- Scan helper: characters before the first occurrence of `pat`,
accumulated while scanning (`go cs pat acc`). -/
def beforeFirst : List Char → List Char → List Char → Option (List Char)
  | [], _, _ => none
  | c :: rest, pat, acc =>
      if startsWithL (c :: rest) pat then some acc
      else beforeFirst rest pat (c :: acc)

/-- Python `"".join(...)`-free model of
`cd.split("filename=")[-1].strip().strip(chr(34))`: the text after the
last `filename=` marker, whitespace- and quote-stripped. -/
def cdFilename (cd : List Char) : Option (List Char) :=
  if containsL cd "filename=".data then
    match beforeFirst cd.reverse "filename=".data.reverse [] with
    | some tail =>
        some ((((Py.strip tail).dropWhile (fun c => c = '"')).reverse.dropWhile
          (fun c => c = '"')).reverse)
    | none => none
  else none

/-- Model of `WGDAPI._try_download` on one deterministic response.
A JSON list body (which would raise `AttributeError` in the source) is
outside the modelled shapes; `fileName` values are taken to be strings. -/
def try_download : DlResp → TryResult
  | DlResp.exc => TryResult.skip
  | DlResp.resp st body =>
      if st ≠ 200 then TryResult.skip
      else
        match body with
        | DlBody.bjsonbad raw => TryResult.success "peer.conf" raw
        | DlBody.bjson file fileName =>
            let fn := ensureConfExt (fileName.getD "peer.conf")
            match file with
            | some text =>
                if containsL text.data "[Interface]".data then TryResult.success fn text
                else TryResult.fail
            | none => TryResult.fail
        | DlBody.bplain cd content =>
            let fn := match cd with
              | some c =>
                  match cdFilename c.data with
                  | some f => String.mk f
                  | none => "peer.conf"
              | none => "peer.conf"
            TryResult.success (ensureConfExt fn) content

/-- Outcome of `download_peer_conf`: a downloaded file, a single
(non-aggregate) raised error, or the final aggregate error listing the
outcome of each fallback attempt. -/
inductive DlOutcome where
  | ok (filename content : String)
  | errSingle (msg : String)
  | errAggregate (tried : List String)
deriving DecidableEq

/-- Fixed message of the marker-missing `WGDError` (source text
abstracted). -/
def markerErr : String := "downloadPeer returned JSON without data.file"

/-- Outcome line recorded for a failed fallback attempt (the source
formats method, path and status or exception type; the model keeps the
distinguishing part). -/
def describeAttempt : DlResp → String
  | DlResp.exc => "EXC"
  | DlResp.resp st _ => toString st

/-- Fallback loop of `download_peer_conf`: first success wins, a raised
`WGDError` from `_try_download` propagates (it is not caught), and each
exhausted attempt appends its outcome line. -/
def dlLoop : List DlResp → List String → DlOutcome
  | [], tried => DlOutcome.errAggregate tried
  | r :: rest, tried =>
      match try_download r with
      | TryResult.success f c => DlOutcome.ok f c
      | TryResult.fail => DlOutcome.errSingle markerErr
      | TryResult.skip => dlLoop rest (tried ++ [describeAttempt r])

/-- Model of `WGDAPI.download_peer_conf`: the primary `id=` variant
first (uncaught exceptions included), then the five fallback variants. -/
def download_peer_conf (primary : DlResp) (fallbacks : List DlResp) : DlOutcome :=
  match try_download primary with
  | TryResult.success f c => DlOutcome.ok f c
  | TryResult.fail => DlOutcome.errSingle markerErr
  | TryResult.skip => dlLoop fallbacks []

end WGDAPI

namespace WGDAPI

/-- Truthiness makes a value non-`None`. -/
theorem truthy_ne_vnone (a : Py.Val) (h : a.truthy = true) : a ≠ Py.Val.vnone := by
  intro he
  subst he
  simp [Py.Val.truthy] at h

/-- A Python `or`-chain is non-`None` when its final operand is. -/
theorem pyOr_ne_vnone (a b : Py.Val) (hb : b ≠ Py.Val.vnone) :
    Py.Val.pyOr a b ≠ Py.Val.vnone := by
  unfold Py.Val.pyOr
  split
  · next h => exact truthy_ne_vnone a h
  · exact hb

/-- Truncation of a nonnegative decimal is nonnegative. -/
theorem Dec.trunc_nonneg (d : Py.Dec) (h : 0 ≤ d.mant) : 0 ≤ d.trunc :=
  Int.tdiv_nonneg h (Int.natCast_nonneg _)

/-- Claim-side predicate for C2: the numeric part of the input (if any)
is nonnegative — the integer or float itself, or the leading parsed
token of a string. -/
def numInNonneg : Py.Val → Prop
  | Py.Val.vnone => True
  | Py.Val.vint n => 0 ≤ n
  | Py.Val.vfloat d => 0 ≤ d.mant
  | Py.Val.vstr s =>
      match (Py.pySplit (Py.strip s.data)).head? with
      | some t =>
          match Py.parseDec t with
          | some d => 0 ≤ d.mant
          | none => True
      | none => True

/-- C2 (amended): the byte-counter coercion `_num` yields an integer;
`None`, empty and unparsable garbage go to 0, unit-suffixed strings are
converted with the binary multiplier `1024 ^ order`, and any input whose
numeric part is nonnegative yields a nonnegative result — but a negative
numeric input passes through un-clamped (see the counterexample). -/
theorem C2_num_nonneg_and_units :
    (∀ v : Py.Val, numInNonneg v → 0 ≤ num v) ∧
    (∀ (s : String) (t0 t1 : List Char) (rest : List (List Char)) (d : Py.Dec),
      Py.pySplit (Py.strip s.data) = t0 :: t1 :: rest →
      Py.parseDec t0 = some d →
      num (Py.Val.vstr s) = (d.mulInt (1024 ^ unitOrder (Py.upperAscii t1))).trunc) ∧
    num (Py.Val.vstr "0.12 GB") = 128849018 ∧
    num (Py.Val.vstr "garbage") = 0 ∧
    num Py.Val.vnone = 0 := by
  refine ⟨?_, ?_, by decide, by decide, by decide⟩
  · intro v hv
    match v with
    | Py.Val.vnone => simp [num]
    | Py.Val.vint n => exact hv
    | Py.Val.vfloat d => exact Dec.trunc_nonneg d hv
    | Py.Val.vstr s =>
        simp only [num]
        cases hsp : Py.pySplit (Py.strip s.data) with
        | nil => simp [hsp]
        | cons t0 ts =>
            simp only [numInNonneg, hsp, List.head?] at hv
            cases ts with
            | nil =>
                cases hpd : Py.parseDec t0 with
                | none => simp [hsp, hpd]
                | some d =>
                    simp only [hpd] at hv
                    simpa [hsp, hpd] using Dec.trunc_nonneg d hv
            | cons t1 ts2 =>
                cases hpd : Py.parseDec t0 with
                | none => simp [hsp, hpd]
                | some d =>
                    simp only [hpd] at hv
                    simp only [hsp, hpd]
                    exact Dec.trunc_nonneg _
                      (mul_nonneg hv (pow_nonneg (by norm_num) _))
  · intro s t0 t1 rest d hsp hpd
    simp only [num, hsp, hpd]

/-- C2 witness: the nonnegativity part applied at a concrete input. -/
theorem C2_witness : (0 : Int) ≤ num (Py.Val.vint 7) :=
  C2_num_nonneg_and_units.1 (Py.Val.vint 7) (by norm_num [numInNonneg])

/-- C2 counterexample: a negative raw field value is not clamped to 0 —
`_peer_rx` returns `-5` for `rx = -5`, contradicting the claimed
non-negativity of the coercion. -/
theorem C2_counterexample :
    peer_rx [("rx", Py.Val.vint (-5))] = -5 ∧
    num (Py.Val.vint (-5)) = -5 ∧
    ¬ ((0 : Int) ≤ -5) := by
  refine ⟨by decide, by decide, by decide⟩

end WGDAPI

namespace WGDAPI

/-- C7: the normalized peer's `active` flag is true iff a last-handshake
timestamp is present and `now - handshake` is within the configured
activity window; under a 130-second window a handshake 60 seconds old is
active and one 200 seconds old is not. -/
theorem C7_active_iff_within_window :
    (∀ (window now : Int) (cfg : String) (p : RawPeer),
      ((norm_peer window now cfg p).active = true ↔
        ∃ h, peer_last_hs now p = some h ∧ now - h ≤ window)) ∧
    (norm_peer 130 1000000000 "wg0"
      [("LatestHandshake", Py.Val.vint 999999940)]).active = true ∧
    (norm_peer 130 1000000000 "wg0"
      [("LatestHandshake", Py.Val.vint 999999800)]).active = false := by
  refine ⟨?_, by decide, by decide⟩
  intro window now cfg p
  cases h : peer_last_hs now p with
  | none => simp [norm_peer, h]
  | some hs => simp [norm_peer, h]

/-- C7 witness: the equivalence applied at a concrete peer record with a
60-second-old handshake under a 130-second window. -/
theorem C7_witness :
    (norm_peer 130 1000000000 "wg1"
      [("latestHandshake", Py.Val.vint 999999940)]).active = true :=
  (C7_active_iff_within_window.1 130 1000000000 "wg1"
    [("latestHandshake", Py.Val.vint 999999940)]).mpr
    ⟨999999940, by decide, by decide⟩

/-- Discriminator used to state C10: whether a value is a Python string. -/
def isStrVal : Py.Val → Bool
  | Py.Val.vstr _ => true
  | _ => false

/-- C10 (amended): every normalized peer carries all ten fields; `id` and
`public_key` are strings with the documented fallbacks (public key, then
empty), `name` and `allowed_ip` are never `None` — `name` falls back to
the last 8 characters of the public key or `(no-name)`, `allowed_ip` to
the empty string — but `name` and `allowed_ip` are taken verbatim from
the raw record and need not be strings (see the counterexample). -/
theorem C10_norm_peer_field_defaults :
    (∀ (window now : Int) (cfg : String) (p : RawPeer),
      (norm_peer window now cfg p).name ≠ Py.Val.vnone ∧
      (norm_peer window now cfg p).allowed_ip ≠ Py.Val.vnone ∧
      (norm_peer window now cfg p).id =
        strOr ((peer_id p).getD "") (strOr ((peer_public_key p).getD "") "") ∧
      (norm_peer window now cfg p).public_key = (peer_public_key p).getD "") ∧
    (∀ (window now : Int) (cfg : String) (p : RawPeer),
      peer_id p = none → peer_public_key p = none →
      (norm_peer window now cfg p).id = "") ∧
    (∀ (window now : Int) (cfg : String) (p : RawPeer),
      (pget p "name").truthy = false → (pget p "Name").truthy = false →
      peer_public_key p = none →
      (norm_peer window now cfg p).name = Py.Val.vstr "(no-name)") ∧
    (∀ (window now : Int) (cfg : String) (p : RawPeer) (s : String),
      (pget p "name").truthy = false → (pget p "Name").truthy = false →
      peer_public_key p = some s → s ≠ "" →
      (norm_peer window now cfg p).name = Py.Val.vstr (s.takeRight 8)) := by
  refine ⟨?_, ?_, ?_, ?_⟩
  · intro window now cfg p
    refine ⟨?_, ?_, rfl, rfl⟩
    · exact pyOr_ne_vnone _ _ (pyOr_ne_vnone _ _ (by simp))
    · exact pyOr_ne_vnone _ _ (by simp)
  · intro window now cfg p hid hpk
    simp [norm_peer, hid, hpk, strOr]
  · intro window now cfg p hn hN hpk
    simp [norm_peer, peer_name, Py.Val.pyOr, hn, hN, hpk]
  · intro window now cfg p s hn hN hpk hs
    simp [norm_peer, peer_name, Py.Val.pyOr, hn, hN, hpk, hs]

/-- C10 witness: the `(no-name)` and empty-id fallbacks applied at the
empty raw record. -/
theorem C10_witness :
    (norm_peer 180 0 "wg0" ([] : RawPeer)).id = "" ∧
    (norm_peer 180 0 "wg0" ([] : RawPeer)).name = Py.Val.vstr "(no-name)" :=
  ⟨C10_norm_peer_field_defaults.2.1 180 0 "wg0" [] (by decide) (by decide),
   C10_norm_peer_field_defaults.2.2.1 180 0 "wg0" [] (by decide) (by decide) (by decide)⟩

/-- C10 counterexample: a truthy non-string upstream `name` (the integer
5) is passed through unchanged, so the normalized `name` is not a string,
contradicting the claimed non-null string values for all four fields. -/
theorem C10_counterexample :
    (norm_peer 180 0 "wg0" [("name", Py.Val.vint 5)]).name = Py.Val.vint 5 ∧
    isStrVal (norm_peer 180 0 "wg0" [("name", Py.Val.vint 5)]).name = false := by
  exact ⟨by decide, by decide⟩

end WGDAPI

namespace WGDAPI

/-- C6: run twice from a fresh client against a dashboard without the
configuration, `ensure_config` issues exactly one create call, both calls
succeed, a present configuration is a no-op, an upstream
`already exist` failure is swallowed as success, and any other create
failure propagates. -/
theorem C6_ensure_config_idempotent :
    (∀ (name : String) (s : Sys),
      s.cache = none → s.listErr = false → s.createErr = none → name ∉ s.upstream →
      (ensure_config name s).1 = Except.ok () ∧
      (ensure_config name (ensure_config name s).2).1 = Except.ok () ∧
      (ensure_config name (ensure_config name s).2).2.createCalls = s.createCalls + 1 ∧
      name ∈ (ensure_config name s).2.upstream) ∧
    (∀ (name : String) (s : Sys),
      s.cache = none → s.listErr = false → s.createErr = none → name ∈ s.upstream →
      (ensure_config name s).1 = Except.ok () ∧
      (ensure_config name s).2.createCalls = s.createCalls) ∧
    (∀ (name : String) (s : Sys),
      s.cache = some [] → s.createErr = none → name ∈ s.upstream →
      (ensure_config name s).1 = Except.ok () ∧
      (ensure_config name s).2.createCalls = s.createCalls + 1) ∧
    (∀ (name : String) (s : Sys) (m : String),
      s.cache = none → s.listErr = false → s.createErr = some m → name ∉ s.upstream →
      containsL (lowerAscii m.data) "already".data = false →
      (ensure_config name s).1 = Except.error m) := by
  refine ⟨?_, ?_, ?_, ?_⟩
  · intro name s hc hl he hn
    obtain ⟨up, ca, cc, le, ce⟩ := s
    simp only at hc hl he hn
    subst hc hl he
    simp [ensure_config, get_configs, add_config, hn]
  · intro name s hc hl he hn
    obtain ⟨up, ca, cc, le, ce⟩ := s
    simp only at hc hl he hn
    subst hc hl he
    simp [ensure_config, get_configs, add_config, hn]
  · intro name s hc he hn
    obtain ⟨up, ca, cc, le, ce⟩ := s
    simp only at hc he hn
    subst hc he
    simp [ensure_config, get_configs, add_config, hn, containsL, lowerAscii,
      startsWithL]
  · intro name s m hc hl he hn hm
    obtain ⟨up, ca, cc, le, ce⟩ := s
    simp only at hc hl he hn
    subst hc hl he
    simp [ensure_config, get_configs, add_config, hn, hm]

/-- C6 witness: the double-call scenario at a concrete fresh state. -/
theorem C6_witness :
    (ensure_config "wg9" ⟨[], none, 0, false, none⟩).1 = Except.ok () ∧
    (ensure_config "wg9" (ensure_config "wg9" ⟨[], none, 0, false, none⟩).2).1 =
      Except.ok () ∧
    (ensure_config "wg9" (ensure_config "wg9" ⟨[], none, 0, false, none⟩).2).2.createCalls =
      0 + 1 ∧
    "wg9" ∈ (ensure_config "wg9" ⟨[], none, 0, false, none⟩).2.upstream :=
  C6_ensure_config_idempotent.1 "wg9" ⟨[], none, 0, false, none⟩ rfl rfl rfl (by simp)

/-- C9: a listing failure inside `ensure_config` is swallowed, the
existing set is treated as empty, and creation is attempted (one create
call is issued); with a benign create endpoint the call still returns
success rather than propagating the listing error. -/
theorem C9_listing_error_swallowed :
    ∀ (name : String) (s : Sys),
      s.cache = none → s.listErr = true →
      (ensure_config name s).2.createCalls = s.createCalls + 1 ∧
      (s.createErr = none → (ensure_config name s).1 = Except.ok ()) := by
  intro name s hc hl
  obtain ⟨up, ca, cc, le, ce⟩ := s
  simp only at hc hl
  subst hc hl
  cases ce with
  | some m =>
      refine ⟨?_, fun h => absurd h (by simp)⟩
      by_cases hc : containsL (lowerAscii m.data) "already".data = true
      · simp [ensure_config, get_configs, add_config, hc]
      · simp [ensure_config, get_configs, add_config, hc]
  | none =>
      have hcontains :
          containsL (lowerAscii ("API error: config already exist").data)
            "already".data = true := by decide
      by_cases hn : name ∈ up
      · refine ⟨?_, fun _ => ?_⟩
        · simp [ensure_config, get_configs, add_config, hn, hcontains]
        · simp [ensure_config, get_configs, add_config, hn, hcontains]
      · refine ⟨?_, fun _ => ?_⟩
        · simp [ensure_config, get_configs, add_config, hn]
        · simp [ensure_config, get_configs, add_config, hn]

/-- C9 witness: the swallow-and-create behavior at a concrete state whose
list endpoint fails while the name already exists upstream. -/
theorem C9_witness :
    (ensure_config "wg0" ⟨["wg0"], none, 0, true, none⟩).2.createCalls = 0 + 1 ∧
    (ensure_config "wg0" ⟨["wg0"], none, 0, true, none⟩).1 = Except.ok () :=
  ⟨(C9_listing_error_swallowed "wg0" ⟨["wg0"], none, 0, true, none⟩ rfl rfl).1,
   (C9_listing_error_swallowed "wg0" ⟨["wg0"], none, 0, true, none⟩ rfl rfl).2 rfl⟩

/-- The probing loop of `get_peers` yields nothing when every attempt is
skipped. -/
theorem firstBreak_eq_none (l : List PeersAttempt)
    (h : ∀ a ∈ l, attemptBreak a = none) : firstBreak l = none := by
  induction l with
  | nil => rfl
  | cons a rest ih =>
      have ha := h a (List.mem_cons_self a rest)
      simp only [firstBreak, ha]
      exact ih fun x hx => h x (List.mem_cons_of_mem a hx)

/-- The probing loop of `get_peers` breaks on the first usable attempt. -/
theorem firstBreak_append (pre : List PeersAttempt) (a : PeersAttempt)
    (ps : List RawPeer) (rest : List PeersAttempt)
    (hpre : ∀ x ∈ pre, attemptBreak x = none) (ha : attemptBreak a = some ps) :
    firstBreak (pre ++ a :: rest) = some ps := by
  induction pre with
  | nil => simp only [List.nil_append, firstBreak, ha]
  | cons b tl ih =>
      have hb := hpre b (List.mem_cons_self b tl)
      simp only [List.cons_append, firstBreak, hb]
      exact ih fun x hx => hpre x (List.mem_cons_of_mem b hx)

/-- C8: within one call, `get_peers` always produces a list (exceptions
from variants are consumed by the loop, never surfaced), caches whatever
it returns, returns the cached list on a fresh cache hit, defaults to the
empty list when every variant fails or is unusable, and otherwise returns
the first variant's usable peer list. -/
theorem C8_get_peers_total_and_default :
    (∀ attempts : List PeersAttempt,
      (get_peers none attempts).2 = some (get_peers none attempts).1) ∧
    (∀ attempts : List PeersAttempt,
      (∀ a ∈ attempts, attemptBreak a = none) → (get_peers none attempts).1 = []) ∧
    (∀ (v : List RawPeer) (attempts : List PeersAttempt),
      get_peers (some v) attempts = (v, some v)) ∧
    (∀ (pre : List PeersAttempt) (a : PeersAttempt) (ps : List RawPeer)
        (rest : List PeersAttempt),
      (∀ x ∈ pre, attemptBreak x = none) → attemptBreak a = some ps →
      (get_peers none (pre ++ a :: rest)).1 = ps) := by
  refine ⟨fun attempts => rfl, ?_, fun v attempts => rfl, ?_⟩
  · intro attempts h
    simp [get_peers, firstBreak_eq_none attempts h]
  · intro pre a ps rest hpre ha
    simp [get_peers, firstBreak_append pre a ps rest hpre ha]

/-- C8 witness: all five variants failing (exceptions and unusable
shapes) at concrete inputs yields the empty list. -/
theorem C8_witness :
    (get_peers none [PeersAttempt.exc, PeersAttempt.exc, PeersAttempt.nonDict,
      PeersAttempt.ddictNonList, PeersAttempt.exc]).1 = [] :=
  C8_get_peers_total_and_default.2.1 _ (by decide)

end WGDAPI

namespace WGDAPI

/-- The fallback path never returns an address with last octet 0 (one
bump past a 0/1 octet; a bump from octet 0 lands on octet 1, which the
code accepts — see the C3 counterexample). -/
theorem allocFallback_last_octet (used : List Nat) :
    allocFallback used % 256 ≠ 0 := by
  unfold allocFallback
  cases used.max? with
  | none => decide
  | some mx =>
      simp only
      split
      · next h =>
          simp only [Bool.or_eq_true, decide_eq_true_eq] at h
          omega
      · next h =>
          simp only [Bool.or_eq_true, decide_eq_true_eq] at h
          omega

/-- C3 (amended): the address allocator never returns an address whose
last octet is 0; the subnet-walk path additionally never returns one
whose last octet is 0 or 1 (which coincides with the network and
first-host addresses only for subnets aligned on a .0 boundary); with no
peers anywhere the fixed bootstrap address 10.66.66.2 is returned. -/
theorem C3_allocator_skips_low_octets :
    (∀ (iface : Option (Nat × Nat)) (used : List Nat),
      suggest_next_allowed_ip iface used % 256 ≠ 0) ∧
    (∀ (base plen : Nat) (used : List Nat) (ip : Nat),
      walkFind base plen used = some ip → ip % 256 ≠ 0 ∧ ip % 256 ≠ 1) ∧
    suggest_next_allowed_ip none [] = ipv4 10 66 66 2 := by
  have hwalk : ∀ (base plen : Nat) (used : List Nat) (ip : Nat),
      walkFind base plen used = some ip → ip % 256 ≠ 0 ∧ ip % 256 ≠ 1 := by
    intro base plen used ip h
    have hp := List.find?_some h
    simp only [Bool.and_eq_true, bne_iff_ne, ne_eq] at hp
    exact ⟨hp.1.1, hp.1.2⟩
  refine ⟨?_, hwalk, by decide⟩
  intro iface used
  unfold suggest_next_allowed_ip
  cases iface with
  | none => exact allocFallback_last_octet used
  | some ap =>
      simp only
      cases hw : walkFind (netBase ap.1 ap.2) ap.2 used with
      | none => exact allocFallback_last_octet used
      | some ip => exact (hwalk _ _ _ _ hw).1

/-- C3 witness: the spec's own example — subnet 10.0.5.0/24 with peers at
.2 and .3 — run through the proved octet properties. -/
theorem C3_witness :
    suggest_next_allowed_ip (some (ipv4 10 0 5 0, 24))
      [ipv4 10 0 5 2, ipv4 10 0 5 3] % 256 ≠ 0 ∧
    (ipv4 10 0 5 4 % 256 ≠ 0 ∧ ipv4 10 0 5 4 % 256 ≠ 1) :=
  ⟨C3_allocator_skips_low_octets.1 (some (ipv4 10 0 5 0, 24))
      [ipv4 10 0 5 2, ipv4 10 0 5 3],
   C3_allocator_skips_low_octets.2.1 (netBase (ipv4 10 0 5 0) 24) 24
      [ipv4 10 0 5 2, ipv4 10 0 5 3] (ipv4 10 0 5 4) (by decide)⟩

/-- C3 counterexample: for the ordinary subnet 10.0.0.128/25 (network
address not on a .0 boundary) the walk returns 10.0.0.129 — exactly the
first host address reserved for the gateway; and in the fallback path,
peers maxing at 10.66.66.255 yield 10.66.67.1, an address with the
reserved last octet 1. -/
theorem C3_counterexample :
    suggest_next_allowed_ip (some (ipv4 10 0 0 128, 25)) [] =
      netBase (ipv4 10 0 0 128) 25 + 1 ∧
    netBase (ipv4 10 0 0 128) 25 + 1 = ipv4 10 0 0 129 ∧
    suggest_next_allowed_ip none [ipv4 10 66 66 255] = ipv4 10 66 67 1 ∧
    ipv4 10 66 67 1 % 256 = 1 := by
  exact ⟨by decide, by decide, by decide, by decide⟩

end WGDAPI

namespace WGDAPI

/-- The retry loop never exceeds `retries + 1` attempts. -/
theorem arequestGo_attempts_le (retries : Nat) (script : List HEvent) :
    ∀ (attempt backoff : Nat) (sleeps : List Nat), attempt ≤ retries →
      (arequestGo retries attempt backoff sleeps script).attempts ≤ retries + 1 := by
  induction script with
  | nil =>
      intro attempt backoff sleeps h
      exact le_trans h (Nat.le_succ retries)
  | cons e rest ih =>
      intro attempt backoff sleeps h
      cases e with
      | resp code body =>
          simp only [arequestGo]
          split
          · split
            · next hcond =>
                simp only [Bool.and_eq_true, decide_eq_true_eq] at hcond
                exact ih _ _ _ hcond.1
            · exact Nat.succ_le_succ h
          · cases body with
            | jbad => exact Nat.succ_le_succ h
            | jfalse m => exact Nat.succ_le_succ h
            | jok s => exact Nat.succ_le_succ h
      | timeout =>
          simp only [arequestGo]
          split
          · next hcond => exact ih _ _ _ (by simpa using hcond)
          · exact Nat.succ_le_succ h
      | herr =>
          simp only [arequestGo]
          split
          · next hcond => exact ih _ _ _ (by simpa using hcond)
          · exact Nat.succ_le_succ h

/-- Every backoff sleep the loop performs is capped at 2000 ms. -/
theorem arequestGo_sleeps_le (retries : Nat) (script : List HEvent) :
    ∀ (attempt backoff : Nat) (sleeps : List Nat), backoff ≤ 2000 →
      (∀ x ∈ sleeps, x ≤ 2000) →
      ∀ x ∈ (arequestGo retries attempt backoff sleeps script).sleeps, x ≤ 2000 := by
  induction script with
  | nil => intro attempt backoff sleeps hb hs; exact hs
  | cons e rest ih =>
      intro attempt backoff sleeps hb hs
      have hstep : ∀ x ∈ sleeps ++ [backoff], x ≤ 2000 := by
        intro x hx
        rcases List.mem_append.mp hx with h1 | h1
        · exact hs x h1
        · simpa using List.mem_singleton.mp h1 ▸ hb
      have hmin : min (backoff * 2) 2000 ≤ 2000 := min_le_right _ _
      cases e with
      | resp code body =>
          simp only [arequestGo]
          split
          · split
            · exact ih _ _ _ hmin hstep
            · exact hs
          · cases body with
            | jbad => exact hs
            | jfalse m => exact hs
            | jok s => exact hs
      | timeout =>
          simp only [arequestGo]
          split
          · exact ih _ _ _ hmin hstep
          · exact hs
      | herr =>
          simp only [arequestGo]
          split
          · exact ih _ _ _ hmin hstep
          · exact hs

/-- C5 (amended): two 503 responses followed by a 200 yield the parsed
200 body in exactly `MAX_RETRIES + 1 = 3` attempts with backoff sleeps
250 ms then 500 ms; in general no call exceeds `retries + 1` attempts and
every backoff sleep is capped at 2000 ms.  Retries fire on 502/503/504
and on connect/read timeouts — and also on any other transport-level
`httpx.HTTPError` (see the counterexample). -/
theorem C5_two_503_then_200 :
    (arequest MAX_RETRIES
      [HEvent.resp 503 JOut.jbad, HEvent.resp 503 JOut.jbad,
       HEvent.resp 200 (JOut.jok "payload")]).result = Except.ok "payload" ∧
    (arequest MAX_RETRIES
      [HEvent.resp 503 JOut.jbad, HEvent.resp 503 JOut.jbad,
       HEvent.resp 200 (JOut.jok "payload")]).attempts = MAX_RETRIES + 1 ∧
    (arequest MAX_RETRIES
      [HEvent.resp 503 JOut.jbad, HEvent.resp 503 JOut.jbad,
       HEvent.resp 200 (JOut.jok "payload")]).sleeps = [250, 500] ∧
    (∀ (retries : Nat) (script : List HEvent),
      (arequest retries script).attempts ≤ retries + 1) ∧
    (∀ (retries : Nat) (script : List HEvent),
      ∀ x ∈ (arequest retries script).sleeps, x ≤ 2000) := by
  refine ⟨rfl, rfl, rfl, ?_, ?_⟩
  · intro retries script
    exact arequestGo_attempts_le retries script 0 250 [] (Nat.zero_le _)
  · intro retries script
    exact arequestGo_sleeps_le retries script 0 250 [] (by norm_num) (by simp)

/-- C5 witness: the universal bounds applied at a concrete script. -/
theorem C5_witness :
    (arequest 2 [HEvent.resp 503 JOut.jbad, HEvent.resp 200 (JOut.jok "x")]).attempts ≤
      2 + 1 ∧
    (250 : Nat) ≤ 2000 :=
  ⟨C5_two_503_then_200.2.2.2.1 2 [HEvent.resp 503 JOut.jbad, HEvent.resp 200 (JOut.jok "x")],
   C5_two_503_then_200.2.2.2.2 2
     [HEvent.resp 503 JOut.jbad, HEvent.resp 200 (JOut.jok "x")] 250 (by decide)⟩

/-- C5 counterexample: the loop also retries on a generic
`httpx.HTTPError` that is neither a 502/503/504 status nor a connect/read
timeout — one such error followed by a 200 yields the body in a second
attempt after a backoff sleep, contradicting the claimed "retrying only
on status 502/503/504 or connect/read timeout". -/
theorem C5_counterexample :
    (arequest 2 [HEvent.herr, HEvent.resp 200 (JOut.jok "body")]).result =
      Except.ok "body" ∧
    (arequest 2 [HEvent.herr, HEvent.resp 200 (JOut.jok "body")]).attempts = 2 ∧
    (arequest 2 [HEvent.herr, HEvent.resp 200 (JOut.jok "body")]).sleeps = [250] :=
  ⟨rfl, rfl, rfl⟩

end WGDAPI

namespace WGDAPI

/-- When every fallback attempt is skipped, the loop aggregates every
attempt's outcome line after the accumulator. -/
theorem dlLoop_all_skip (rs : List DlResp) :
    ∀ acc : List String, (∀ r ∈ rs, try_download r = TryResult.skip) →
      dlLoop rs acc = DlOutcome.errAggregate (acc ++ rs.map describeAttempt) := by
  induction rs with
  | nil => intro acc h; simp [dlLoop]
  | cons r rest ih =>
      intro acc h
      have hr := h r (List.mem_cons_self r rest)
      simp only [dlLoop, hr]
      rw [ih _ fun x hx => h x (List.mem_cons_of_mem r hx)]
      simp

/-- The loop succeeds on the first non-skipped successful attempt. -/
theorem dlLoop_first_success (pre : List DlResp) (r : DlResp) (rest : List DlResp)
    (f c : String) :
    ∀ acc : List String, (∀ x ∈ pre, try_download x = TryResult.skip) →
      try_download r = TryResult.success f c →
      dlLoop (pre ++ r :: rest) acc = DlOutcome.ok f c := by
  induction pre with
  | nil =>
      intro acc _ hr
      simp only [List.nil_append, dlLoop, hr]
  | cons b tl ih =>
      intro acc hpre hr
      have hb := hpre b (List.mem_cons_self b tl)
      simp only [List.cons_append, dlLoop, hb]
      exact ih _ (fun x hx => hpre x (List.mem_cons_of_mem b hx)) hr

/-- C4 (amended): `download_peer_conf` walks its fixed variant sequence
and succeeds on the first attempt `_try_download` accepts — a 200 JSON
envelope whose file carries the `[Interface]` marker, or any plain 200
body, which is returned without a marker check; an attempt whose 200 JSON
envelope lacks a marker-bearing file raises a single non-aggregate error
immediately, abandoning the remaining variants; only when every attempt
yields nothing does the call raise one aggregate error enumerating the
fallback attempts' outcomes. -/
theorem C4_download_first_success_or_aggregate :
    (∀ (p : DlResp) (rs : List DlResp) (f c : String),
      try_download p = TryResult.success f c →
      download_peer_conf p rs = DlOutcome.ok f c) ∧
    (∀ (p : DlResp) (rs : List DlResp),
      try_download p = TryResult.fail →
      download_peer_conf p rs = DlOutcome.errSingle markerErr) ∧
    (∀ (p : DlResp) (rs : List DlResp),
      try_download p = TryResult.skip →
      (∀ r ∈ rs, try_download r = TryResult.skip) →
      download_peer_conf p rs = DlOutcome.errAggregate (rs.map describeAttempt)) ∧
    (∀ (p : DlResp) (pre : List DlResp) (r : DlResp) (rest : List DlResp) (f c : String),
      try_download p = TryResult.skip →
      (∀ x ∈ pre, try_download x = TryResult.skip) →
      try_download r = TryResult.success f c →
      download_peer_conf p (pre ++ r :: rest) = DlOutcome.ok f c) := by
  refine ⟨?_, ?_, ?_, ?_⟩
  · intro p rs f c hp
    simp [download_peer_conf, hp]
  · intro p rs hp
    simp [download_peer_conf, hp]
  · intro p rs hp hall
    simp only [download_peer_conf, hp]
    simpa using dlLoop_all_skip rs [] hall
  · intro p pre r rest f c hp hpre hr
    simp only [download_peer_conf, hp]
    exact dlLoop_first_success pre r rest f c [] hpre hr

/-- C4 witness: the proved clauses applied at concrete responses — a
plain-body success on the primary variant, and a 404-then-success
sequence resolved by the second variant. -/
theorem C4_witness :
    download_peer_conf (DlResp.resp 200 (DlBody.bplain none "abc")) [] =
      DlOutcome.ok "peer.conf" "abc" ∧
    download_peer_conf (DlResp.resp 404 (DlBody.bplain none ""))
      ([DlResp.resp 503 (DlBody.bplain none "")] ++
        DlResp.resp 200 (DlBody.bjson (some "[Interface] x") (some "a.conf")) :: []) =
      DlOutcome.ok "a.conf" "[Interface] x" :=
  ⟨C4_download_first_success_or_aggregate.1 _ [] "peer.conf" "abc" (by decide),
   C4_download_first_success_or_aggregate.2.2.2 _ _ _ [] "a.conf" "[Interface] x"
     (by decide) (by decide) (by decide)⟩

/-- C4 counterexample: a 200 JSON envelope without the marker on the
primary attempt raises the single non-aggregate error immediately even
though the next variant would have succeeded — one attempt's failure
terminates the sequence early; and a plain 200 body succeeds with no
`[Interface]` marker at all, contradicting "succeeds on the first attempt
whose body contains the expected marker". -/
theorem C4_counterexample :
    download_peer_conf (DlResp.resp 200 (DlBody.bjson (some "no marker here") none))
      [DlResp.resp 200 (DlBody.bplain none "[Interface] good")] =
      DlOutcome.errSingle markerErr ∧
    try_download (DlResp.resp 200 (DlBody.bplain none "[Interface] good")) =
      TryResult.success "peer.conf" "[Interface] good" ∧
    download_peer_conf (DlResp.resp 200 (DlBody.bplain none "hello")) [] =
      DlOutcome.ok "peer.conf" "hello" ∧
    containsL "hello".data "[Interface]".data = false := by
  exact ⟨by decide, by decide, by decide, by decide⟩

end WGDAPI

namespace WGDAPI

/-- Claim-side relation for C1: `Encodes now t e` says the value `e` is a
supported handshake-time encoding of the instant `t` (unix seconds) when
evaluated at current time `now` — unix seconds, milliseconds, nanoseconds,
an ISO-8601 string denoting `t`, or a relative token denoting `t` units
before `now` (with the truncation the source applies to fractional
counts). -/
inductive Encodes (now : Int) : Int → Py.Val → Prop where
  | seconds (t : Int) : Encodes now t (Py.Val.vint t)
  | millis (t : Int) : Encodes now t (Py.Val.vint (1000 * t))
  | nanos (t : Int) : Encodes now t (Py.Val.vint (1000000000 * t))
  | iso (t : Int) (s : String)
      (hstrip : Py.strip s.data = s.data)
      (hne : s.data ≠ [])
      (hrel : relGuard s.data = false)
      (hparse : isoParse (replaceZ s.data) = some t) :
      Encodes now t (Py.Val.vstr s)
  | rel (s : String) (d : Py.Dec) (u : Char) (k : Int)
      (hstrip : Py.strip s.data = s.data)
      (hrel : relGuard s.data = true)
      (hnum : Py.parseDec s.data.dropLast = some d)
      (hlast : s.data.getLast? = some u)
      (hunit : (u = 's' ∧ k = 1) ∨ (u = 'm' ∧ k = 60) ∨
               (u = 'h' ∧ k = 3600) ∨ (u = 'd' ∧ k = 86400)) :
      Encodes now (now - (d.mulInt k).trunc) (Py.Val.vstr s)

/-- A string passing the relative-suffix guard is nonempty. -/
theorem relGuard_ne_nil (cs : List Char) (h : relGuard cs = true) : cs ≠ [] := by
  intro he
  subst he
  simp [relGuard] at h

/-- Inside the window `10^7 < t ≤ 10^9` every supported encoding of `t`
normalizes to exactly `t`. -/
theorem encodes_to_unix (now t : Int) (e : Py.Val) (he : Encodes now t e)
    (hlo : 10 ^ 7 < t) (hhi : t ≤ 10 ^ 9) : to_unix now e = some t := by
  norm_num at hlo hhi
  cases he with
  | seconds =>
      simp only [to_unix, toUnixInt]
      rw [if_neg (by norm_num; omega), if_neg (by norm_num; omega)]
  | millis =>
      simp only [to_unix, toUnixInt]
      rw [if_neg (by norm_num; omega), if_pos (by norm_num; omega),
        show ((10 : Int) ^ 3) = 1000 from by norm_num,
        Int.mul_tdiv_cancel_left t (by norm_num : (1000 : Int) ≠ 0)]
  | nanos =>
      simp only [to_unix, toUnixInt]
      rw [if_pos (by norm_num; omega),
        show ((10 : Int) ^ 9) = 1000000000 from by norm_num,
        Int.mul_tdiv_cancel_left t (by norm_num : (1000000000 : Int) ≠ 0)]
  | iso t2 s2 hstrip hne hrel hparse =>
      simp [to_unix, hstrip, hne, hrel, hparse]
  | rel s d u k hstrip hrel hnum hlast hunit =>
      have hne := relGuard_ne_nil _ hrel
      rcases hunit with ⟨hu, hk⟩ | ⟨hu, hk⟩ | ⟨hu, hk⟩ | ⟨hu, hk⟩ <;>
        subst hu <;> subst hk <;>
        simp [to_unix, hstrip, hne, hrel, hnum, hlast, Py.Dec.mulInt,
          Py.Dec.trunc]

/-- C1 (amended): any two supported encodings of the same instant agree
(within one second — in fact exactly) for instants `t` with
`10^7 < t ≤ 10^9`, the window in which the magnitude heuristic of
`_to_unix` classifies seconds, milliseconds and nanoseconds consistently;
outside it equivalent encodings can diverge arbitrarily (see the
counterexample). -/
theorem C1_encodings_agree_in_window (now t : Int) (e1 e2 : Py.Val)
    (h1 : Encodes now t e1) (h2 : Encodes now t e2)
    (hlo : 10 ^ 7 < t) (hhi : t ≤ 10 ^ 9) :
    ∃ u1 u2, to_unix now e1 = some u1 ∧ to_unix now e2 = some u2 ∧
      (u1 - u2).natAbs ≤ 1 :=
  ⟨t, t, encodes_to_unix now t e1 h1 hlo hhi,
    encodes_to_unix now t e2 h2 hlo hhi, by simp⟩

/-- C1 witness: the agreement theorem applied to the milliseconds and
relative-token encodings of the instant 20000000 at now = 20000060. -/
theorem C1_witness :
    ∃ u1 u2, to_unix 20000060 (Py.Val.vint (1000 * 20000000)) = some u1 ∧
      to_unix 20000060 (Py.Val.vstr "60s") = some u2 ∧
      (u1 - u2).natAbs ≤ 1 := by
  have hrel0 : Encodes 20000060
      (20000060 - ((⟨60, 0⟩ : Py.Dec).mulInt 1).trunc) (Py.Val.vstr "60s") :=
    Encodes.rel "60s" ⟨60, 0⟩ 's' 1 (by decide) (by decide) (by decide)
      (by decide) (Or.inl ⟨rfl, rfl⟩)
  have heq : (20000060 : Int) - ((⟨60, 0⟩ : Py.Dec).mulInt 1).trunc = 20000000 := by
    decide
  exact C1_encodings_agree_in_window 20000060 20000000 _ _
    (Encodes.millis 20000000) (heq ▸ hrel0) (by norm_num) (by norm_num)

/-- C1 counterexample: at the instant 1700000000 (well inside the range of
real handshakes) the seconds encoding normalizes to 1700000000 while the
milliseconds encoding, being above 1e12, is rescaled as nanoseconds and
normalizes to 1700 — the two supported encodings of the same instant
differ by far more than one second. -/
theorem C1_counterexample :
    Encodes 1700000000 1700000000 (Py.Val.vint 1700000000) ∧
    Encodes 1700000000 1700000000 (Py.Val.vint (1000 * 1700000000)) ∧
    to_unix 1700000000 (Py.Val.vint 1700000000) = some 1700000000 ∧
    to_unix 1700000000 (Py.Val.vint (1000 * 1700000000)) = some 1700 ∧
    ¬ ((1700000000 - 1700 : Int).natAbs ≤ 1) :=
  ⟨Encodes.seconds 1700000000, Encodes.millis 1700000000,
    by decide, by decide, by decide⟩

end WGDAPI
